import Mathlib

/-!
Verification of the request-validation and data-consistency layer of a
library-catalog REST API (Express + Mongoose + Joi).

The model is a shallow embedding of:
  * `src/models/book.js` and `src/models/category.js` (Mongoose schemas,
    pre-save hooks, instance methods `addStock` / `reduceStock`),
  * `src/controllers/bookController.js` (book and category controllers:
    `createBook`, `updateBook`, `updateBookStock`, `createCategory`,
    `deleteCategory`, `toggleCategoryStatus`, `getCategoryById`),
  * `src/middleware/validation.js` (the Joi `validate` middleware with
    `allowUnknown: false, stripUnknown: true`, and `validateQueryParams`),
  * `src/routes/bookRoutes.js` (the per-route stock validation and the
    `validateStockConsistency` middleware).

Modelling conventions:
  * Mongo ObjectIds are opaque `Nat`s; the database is explicit state
    (`DB`), and `findById` / `save` / `findByIdAndDelete` are list
    operations keyed on the id.
  * Controllers return the post-state database together with an
    `Except ApiError` result; an error result leaves the database
    component equal to the input (the source returns the HTTP error
    before performing any persistence write).
  * Mongoose marks a path modified only when the assigned value differs
    from the stored one; `ModifiedPaths` records which paths a save sees
    as modified, and the pre-save hooks branch on those flags exactly as
    the source does.
  * `findByIdAndUpdate` (used by the book/category update controllers)
    does NOT run the pre-save hooks; only `Model.create` and
    `document.save()` do.  The model reflects this.
  * Book fields not touched by any consistency rule under verification
    (description, publishedDate, publisher, pages, language, price,
    coverImage, averageRating, reviewCount, isFeatured, timestamps) are
    elided from the `Book` record; category timestamps likewise.
-/

/-- Book `status` enumeration from `src/models/book.js`
(`disponible`, `agotado`, `descontinuado`, `próximamente`). -/
inductive BookStatus
  | disponible
  | agotado
  | descontinuado
  | proximamente
deriving DecidableEq, Repr

/-- The Book document (`src/models/book.js`), restricted to the fields the
consistency rules read or write. -/
structure Book where
  id : Nat
  title : String
  author : String
  isbn : String
  category : Nat
  stock : Nat
  status : BookStatus
deriving DecidableEq, Repr

/-- The Category document (`src/models/category.js`). -/
structure Category where
  id : Nat
  name : String
  description : String
  color : String
  isActive : Bool
deriving DecidableEq, Repr

/-- The persistent store: the `books` and `categories` collections. -/
structure DB where
  books : List Book
  categories : List Category
deriving DecidableEq, Repr

/-- The error taxonomy used by the controllers (spec section 7). -/
inductive ApiError
  | notFound
  | invalidReference
  | inactiveReference
  | duplicateISBN
  | duplicateName
  | insufficientStock
  | invalidOperation
  | stockStatusInconsistent
deriving DecidableEq, Repr

/-- HTTP status code attached to each error kind by the controllers. -/
def ApiError.statusCode : ApiError → Nat
  | .notFound => 404
  | .invalidReference => 400
  | .inactiveReference => 400
  | .duplicateISBN => 409
  | .duplicateName => 409
  | .insufficientStock => 400
  | .invalidOperation => 400
  | .stockStatusInconsistent => 400

/-- `Model.findById` on the books collection. -/
def findBook (db : DB) (id : Nat) : Option Book :=
  db.books.find? (fun b => b.id == id)

/-- `Model.findById` on the categories collection. -/
def findCategory (db : DB) (id : Nat) : Option Category :=
  db.categories.find? (fun c => c.id == id)

/-- Persisting a (already existing) book document: the stored document
with the same id is replaced. -/
def saveBook (db : DB) (b : Book) : DB :=
  { db with books := db.books.map (fun x => if x.id == b.id then b else x) }

/-- Persisting a (already existing) category document. -/
def saveCategory (db : DB) (c : Category) : DB :=
  { db with categories := db.categories.map (fun x => if x.id == c.id then c else x) }

/- ## String normalization helpers (JS semantics) -/

/-- JS `s.charAt(0).toUpperCase() + s.slice(1)` (book title hook). -/
def jsCapitalizeFirst (s : String) : String :=
  match s.data with
  | [] => ""
  | c :: cs => String.mk (c.toUpper :: cs)

/-- JS `w.charAt(0).toUpperCase() + w.slice(1).toLowerCase()`:
first character uppercased, the remainder lowercased. -/
def jsCapWord (w : String) : String :=
  match w.data with
  | [] => ""
  | c :: cs => String.mk (c.toUpper :: cs.map Char.toLower)

/-- JS `s.split(sep)` on a character list: splits at every occurrence of
the separator, keeping empty segments (so `"a  b".split(' ')` yields
`["a", "", "b"]` and `"".split(' ')` yields `[""]`). -/
def splitAtChar (sep : Char) : List Char → List (List Char)
  | [] => [[]]
  | c :: rest =>
    match splitAtChar sep rest with
    | [] => [[]]
    | w :: ws => if c = sep then [] :: w :: ws else (c :: w) :: ws

/-- JS `s.split(' ')`. -/
def jsSplitOnSpace (s : String) : List String :=
  (splitAtChar ' ' s.data).map String.mk

/-- JS `s.split(' ').map(capWord).join(' ')` (book author hook). -/
def jsCapitalizeWords (s : String) : String :=
  String.intercalate " " ((jsSplitOnSpace s).map jsCapWord)

/-- The category pre-save name normalization
(`src/models/category.js` line 57):
`name.charAt(0).toUpperCase() + name.slice(1).toLowerCase()`. -/
def categoryNormalizeName (s : String) : String :=
  jsCapWord s

/-- Modelled from the spec: "normalized to title-case on write" — every
space-separated word capitalized.  Used only to compare the spec's claim
with the source's `categoryNormalizeName`. -/
def titleCaseSpec (s : String) : String :=
  String.intercalate " " ((jsSplitOnSpace s).map jsCapWord)

/-- Case-insensitive string equality (ASCII case folding).  This is the
comparison the spec's claim language means by "equals the payload's name
ignoring case"; the source's actual duplicate lookup interpolates the
raw name into a regex and is modelled separately by `jsRegexTestIns`. -/
def eqIgnoreCase (a b : String) : Bool :=
  a.data.map Char.toLower == b.data.map Char.toLower

/- ## Regex model for the category duplicate lookup

`createCategory` checks for duplicates with
`findOne({name: {$regex: '^<name>$', $options: 'i'}})`, interpolating
the raw payload name into the pattern, which MongoDB evaluates as an
anchored caseless PCRE match.  The model below implements the pattern
constructs an interpolated name can produce that PCRE and JS regexes
agree on: literal characters, escaped punctuation (`\.` etc.), the any
character `.` (not matching a newline), and greedy or lazy `*` `+` `?`
quantifiers.  Patterns using the remaining syntax characters
(alternation, groups, character classes, braces, inner anchors,
alphanumeric escapes, a dangling backslash — either invalid or beyond
the model) fall back to case-insensitive equality; no theorem below
quantifies over such names. -/

/-- The regex syntax characters of `^<name>$` interpolation: a name
avoiding all of them is matched purely literally. -/
def regexSyntaxChars : List Char :=
  ['\\', '^', '$', '.', '|', '?', '*', '+', '(', ')', '[', ']', '\x7b', '\x7d']

/-- Pattern tokens: a literal character, the `.` wildcard, or one of the
three quantifier marks. -/
inductive RTok
  | lit (c : Char)
  | anyDot
  | star
  | plus
  | opt
deriving DecidableEq, Repr

/-- A single-character matcher: a literal or the `.` wildcard. -/
inductive CSpec
  | lit (c : Char)
  | anyDot
deriving DecidableEq, Repr

/-- A quantifier on one atom (`+` and `?` are handled directly; lazy
marks change captures, not acceptance, so they are absorbed). -/
inductive Quant
  | one
  | star
  | plus
  | opt
deriving DecidableEq, Repr

/-- A quantified atom of the parsed pattern. -/
structure QAtom where
  spec : CSpec
  quant : Quant
deriving DecidableEq, Repr

/-- Tokenize the interpolated name: backslash escapes of punctuation
become literals (escaping an alphanumeric is a class or reference —
beyond the model), `.` `*` `+` `?` become their tokens, the remaining
syntax characters are beyond the model, and everything else is a
literal. -/
def tokenize : List Char → Option (List RTok)
  | [] => some []
  | c :: rest =>
    if c = '\\' then
      match rest with
      | [] => none
      | e :: rest2 =>
        if e.isAlphanum then none
        else (tokenize rest2).map (RTok.lit e :: ·)
    else if c = '.' then (tokenize rest).map (RTok.anyDot :: ·)
    else if c = '*' then (tokenize rest).map (RTok.star :: ·)
    else if c = '+' then (tokenize rest).map (RTok.plus :: ·)
    else if c = '?' then (tokenize rest).map (RTok.opt :: ·)
    else if c ∈ ['^', '$', '|', '(', ')', '[', ']', '\x7b', '\x7d'] then none
    else (tokenize rest).map (RTok.lit c :: ·)

/-- Attach each quantifier token to the atom before it (absorbing a lazy
`?` mark after `*` `+` `?`); a quantifier with nothing to repeat is a
pattern error. -/
def groupQuants : List RTok → Option (List QAtom)
  | [] => some []
  | .star :: _ => none
  | .plus :: _ => none
  | .opt :: _ => none
  | .lit c :: rest =>
    match rest with
    | .star :: .opt :: r => (groupQuants r).map (⟨.lit c, .star⟩ :: ·)
    | .star :: r => (groupQuants r).map (⟨.lit c, .star⟩ :: ·)
    | .plus :: .opt :: r => (groupQuants r).map (⟨.lit c, .plus⟩ :: ·)
    | .plus :: r => (groupQuants r).map (⟨.lit c, .plus⟩ :: ·)
    | .opt :: .opt :: r => (groupQuants r).map (⟨.lit c, .opt⟩ :: ·)
    | .opt :: r => (groupQuants r).map (⟨.lit c, .opt⟩ :: ·)
    | r => (groupQuants r).map (⟨.lit c, .one⟩ :: ·)
  | .anyDot :: rest =>
    match rest with
    | .star :: .opt :: r => (groupQuants r).map (⟨.anyDot, .star⟩ :: ·)
    | .star :: r => (groupQuants r).map (⟨.anyDot, .star⟩ :: ·)
    | .plus :: .opt :: r => (groupQuants r).map (⟨.anyDot, .plus⟩ :: ·)
    | .plus :: r => (groupQuants r).map (⟨.anyDot, .plus⟩ :: ·)
    | .opt :: .opt :: r => (groupQuants r).map (⟨.anyDot, .opt⟩ :: ·)
    | .opt :: r => (groupQuants r).map (⟨.anyDot, .opt⟩ :: ·)
    | r => (groupQuants r).map (⟨.anyDot, .one⟩ :: ·)

/-- Parse an interpolated name into quantified atoms (the wrapping `^`
and `$` anchor the match to the whole string, so matching is whole-input
matching of the atom sequence). -/
def parsePattern (s : String) : Option (List QAtom) :=
  (tokenize s.data).bind groupQuants

/-- Caseless single-character match: literals compare case-folded
(PCRE `i` option, ASCII); `.` matches anything but a newline. -/
def specMatchIns : CSpec → Char → Bool
  | .lit c, x => c.toLower == x.toLower
  | .anyDot, x => !(x == '\n')

/-- Whole-input match of a quantified-atom sequence, with explicit fuel
so the kernel can evaluate it.  Every recursive call consumes an atom or
an input character, so `atoms + input + 1` fuel always suffices. -/
def matchAtomsF : Nat → List QAtom → List Char → Bool
  | 0, _, _ => false
  | _ + 1, [], [] => true
  | _ + 1, [], _ :: _ => false
  | fuel + 1, ⟨sp, .one⟩ :: as, cs =>
    match cs with
    | [] => false
    | c :: cs2 => specMatchIns sp c && matchAtomsF fuel as cs2
  | fuel + 1, ⟨sp, .opt⟩ :: as, cs =>
    matchAtomsF fuel as cs ||
      (match cs with
       | [] => false
       | c :: cs2 => specMatchIns sp c && matchAtomsF fuel as cs2)
  | fuel + 1, ⟨sp, .plus⟩ :: as, cs =>
    (match cs with
     | [] => false
     | c :: cs2 => specMatchIns sp c && matchAtomsF fuel (⟨sp, .star⟩ :: as) cs2)
  | fuel + 1, ⟨sp, .star⟩ :: as, cs =>
    matchAtomsF fuel as cs ||
      (match cs with
       | [] => false
       | c :: cs2 => specMatchIns sp c && matchAtomsF fuel (⟨sp, .star⟩ :: as) cs2)

/-- Whole-input match with sufficient fuel. -/
def matchAtoms (as : List QAtom) (cs : List Char) : Bool :=
  matchAtomsF (as.length + cs.length + 1) as cs

/-- The duplicate lookup
`findOne({name: {$regex: '^<pattern>$', $options: 'i'}})` applied to one
stored name: parse the interpolated pattern and match the stored name
caselessly against the whole of it; patterns beyond the modelled subset
fall back to case-insensitive equality (see the section comment). -/
def jsRegexTestIns (pattern stored : String) : Bool :=
  match parsePattern pattern with
  | some atoms => matchAtoms atoms stored.data
  | none => eqIgnoreCase pattern stored

/- ## Mongoose pre-save hook for books -/

/-- Which document paths a `save()` sees as modified.  Mongoose marks a
path modified only when an assignment actually changes its value; on a
newly created document every set path is modified. -/
structure ModifiedPaths where
  title : Bool
  author : Bool
  stock : Bool
deriving DecidableEq, Repr

/-- The status-derivation branch of the book pre-save hook
(`src/models/book.js` lines 190-196), run when the `stock` path was
modified: `stock === 0 && status === 'disponible'` flips the status to
`agotado`; `stock > 0 && status === 'agotado'` flips it back to
`disponible`; every other status is left untouched. -/
def bookDeriveStatus (b : Book) : Book :=
  if b.stock = 0 ∧ b.status = .disponible then { b with status := .agotado }
  else if 0 < b.stock ∧ b.status = .agotado then { b with status := .disponible }
  else b

/-- The `bookSchema.pre('save')` hook (`src/models/book.js` lines
176-199): capitalizes the title's first letter, title-cases the author,
and, when `stock` was modified, derives `status` from `stock`. -/
def bookPreSave (m : ModifiedPaths) (b : Book) : Book :=
  let b1 := if m.title then { b with title := jsCapitalizeFirst b.title } else b
  let b2 := if m.author then { b1 with author := jsCapitalizeWords b1.author } else b1
  if m.stock then bookDeriveStatus b2 else b2

/- ## Stock operations (`src/models/book.js` methods + stock controller) -/

/-- The stock operation enumeration of `PATCH /api/books/:id/stock`. -/
inductive StockOp
  | add
  | reduce
  | set
deriving DecidableEq, Repr

/-- `bookSchema.methods.addStock`: `this.stock += quantity; this.save()`.
The stock path counts as modified exactly when the value changed. -/
def addStock (b : Book) (q : Nat) : Book :=
  bookPreSave ⟨false, false, q ≠ 0⟩ { b with stock := b.stock + q }

/-- `bookSchema.methods.reduceStock`: mutates and saves only when
`this.stock >= quantity`, otherwise throws `'Stock insuficiente'`
before touching the document. -/
def reduceStock (b : Book) (q : Nat) : Except String Book :=
  if b.stock ≥ q then
    .ok (bookPreSave ⟨false, false, q ≠ 0⟩ { b with stock := b.stock - q })
  else
    .error "Stock insuficiente"

/-- The `set` branch of the stock controller:
`book.stock = quantity; book.save()`. -/
def setStockDirect (b : Book) (q : Nat) : Book :=
  bookPreSave ⟨false, false, q ≠ b.stock⟩ { b with stock := q }

/-- The operation dispatch inside `updateBookStock`
(`src/controllers/bookController.js` lines 568-581); a model-level
`reduceStock` failure is rethrown by the controller's catch as a 400
`InsufficientStock`. -/
def applyStockOp (b : Book) (op : StockOp) (q : Nat) : Except ApiError Book :=
  match op with
  | .add => .ok (addStock b q)
  | .reduce =>
    match reduceStock b q with
    | .ok b2 => .ok b2
    | .error _ => .error .insufficientStock
  | .set => .ok (setStockDirect b q)

/-- The stock-change summary returned by the stock controller
(`stockChange: {operation, quantity, newStock}`). -/
structure StockResponse where
  operation : StockOp
  quantity : Nat
  newStock : Nat
deriving DecidableEq, Repr

/-- `updateBookStock` (`src/controllers/bookController.js` lines
558-600): find the book (404 when absent), apply the operation, persist,
re-fetch the updated document and report the new stock. -/
def updateBookStock (db : DB) (id : Nat) (op : StockOp) (q : Nat) :
    DB × Except ApiError StockResponse :=
  match findBook db id with
  | none => (db, .error .notFound)
  | some book =>
    match applyStockOp book op q with
    | .error e => (db, .error e)
    | .ok saved =>
      let db2 := saveBook db saved
      match findBook db2 id with
      | none => (db2, .error .notFound)
      | some updatedBook => (db2, .ok ⟨op, q, updatedBook.stock⟩)

/- ## Book create and update controllers -/

/-- The validated book-create payload (after the Joi `create` schema has
applied its defaults: `stock` defaults to 0, `status` to `disponible`).
Fields not read by any consistency rule are elided. -/
structure BookPayload where
  title : String
  author : String
  isbn : String
  category : Nat
  stock : Nat
  status : BookStatus
deriving DecidableEq, Repr

/-- `Book.create` materializes the document and runs the pre-save hook;
on a new document every set path counts as modified. -/
def mkBook (newId : Nat) (p : BookPayload) : Book :=
  bookPreSave ⟨true, true, true⟩
    { id := newId, title := p.title, author := p.author, isbn := p.isbn,
      category := p.category, stock := p.stock, status := p.status }

/-- `createBook` (`src/controllers/bookController.js` lines 189-271):
(1) the referenced category must exist (else 400), (2) it must be active
(else 400), (3) the isbn must be unused (else 409), and only then is the
book persisted.  Error returns happen before any write, so the database
component is unchanged on every failure. -/
def createBook (db : DB) (newId : Nat) (p : BookPayload) :
    DB × Except ApiError Book :=
  match findCategory db p.category with
  | none => (db, .error .invalidReference)
  | some cat =>
    if cat.isActive then
      if db.books.any (fun x => x.isbn == p.isbn) then
        (db, .error .duplicateISBN)
      else
        let book := mkBook newId p
        ({ db with books := db.books ++ [book] }, .ok book)
    else (db, .error .inactiveReference)

/-- The book-update payload: the Joi `update` schema marks every field
optional (`src/middleware/validation.js` lines 180-197). -/
structure BookUpdatePayload where
  title : Option String := none
  author : Option String := none
  isbn : Option String := none
  category : Option Nat := none
  stock : Option Nat := none
  status : Option BookStatus := none
deriving DecidableEq, Repr

/-- `findByIdAndUpdate` merges the present payload fields into the stored
document.  It does NOT run the `pre('save')` hook (only field-level
validators), so no stock/status derivation happens here. -/
def applyBookUpdate (b : Book) (u : BookUpdatePayload) : Book :=
  { b with
    title := u.title.getD b.title,
    author := u.author.getD b.author,
    isbn := u.isbn.getD b.isbn,
    category := u.category.getD b.category,
    stock := u.stock.getD b.stock,
    status := u.status.getD b.status }

/-- The `validateStockConsistency` middleware
(`src/routes/bookRoutes.js` lines 880-900): returns `true` when the
request passes.  First check: `stock === 0 && status && status !==
'agotado'`; second check: `status === 'disponible' && stock !==
undefined && stock === 0`. -/
def validateStockConsistency (stock : Option Nat) (status : Option BookStatus) : Bool :=
  if stock = some 0 ∧ status.isSome ∧ status ≠ some .agotado then false
  else if status = some .disponible ∧ stock.isSome ∧ stock = some 0 then false
  else true

/-- `updateBook` (`src/controllers/bookController.js` lines 279-362):
lookup (404), re-check the category reference when it changes, re-check
isbn uniqueness (excluding the current id) when it changes, then apply
the partial update via `findByIdAndUpdate` (which skips the pre-save
hook). -/
def updateBook (db : DB) (id : Nat) (u : BookUpdatePayload) :
    DB × Except ApiError Book :=
  match findBook db id with
  | none => (db, .error .notFound)
  | some book =>
    let catCheck : Except ApiError Unit :=
      match u.category with
      | some cid =>
        if cid ≠ book.category then
          match findCategory db cid with
          | none => .error .invalidReference
          | some cat => if cat.isActive then .ok () else .error .inactiveReference
        else .ok ()
      | none => .ok ()
    match catCheck with
    | .error e => (db, .error e)
    | .ok _ =>
      let isbnCheck : Except ApiError Unit :=
        match u.isbn with
        | some i =>
          if i ≠ book.isbn ∧ db.books.any (fun x => x.isbn == i ∧ x.id ≠ id) then
            .error .duplicateISBN
          else .ok ()
        | none => .ok ()
      match isbnCheck with
      | .error e => (db, .error e)
      | .ok _ =>
        let updated := applyBookUpdate book u
        (saveBook db updated, .ok updated)

/-- The `PUT /api/books/:id` pipeline.  Note: in the source,
`validateStockConsistency` is registered with `router.use` AFTER the
route handlers (`src/routes/bookRoutes.js` line 904), so it never
actually runs for this route; the model includes it anyway — even with
the middleware in the chain, the update path below can break the
stock/status invariant, because the middleware only reacts when the
offending fields are present together in the payload. -/
def putBookRoute (db : DB) (id : Nat) (u : BookUpdatePayload) :
    DB × Except ApiError Book :=
  if validateStockConsistency u.stock u.status then updateBook db id u
  else (db, .error .stockStatusInconsistent)

/-- The consistency invariant claimed for books (spec section 3):
zero stock is never paired with the `disponible` status. -/
def stockStatusCoherent (b : Book) : Prop :=
  b.stock = 0 → b.status ≠ .disponible

instance (b : Book) : Decidable (stockStatusCoherent b) := by
  unfold stockStatusCoherent; infer_instance

/- ## Category controllers -/

/-- The validated category-create payload (`color` and `isActive` are
optional in the Joi schema; their defaults are applied by the Mongoose
schema at create time). -/
structure CategoryPayload where
  name : String
  description : String
  color : Option String := none
  isActive : Option Bool := none
deriving DecidableEq, Repr

/-- `createCategory` (`src/controllers/bookController.js` category part,
lines 785-845): the duplicate lookup interpolates the raw payload name
into an anchored case-insensitive regex
(`findOne({name: {$regex: '^<name>$', $options: 'i'}})`, modelled by
`jsRegexTestIns`); a match is rejected with 409 before anything is
written; otherwise the document is created, the category pre-save hook
normalizing the name (first letter uppercased, remainder lowercased)
and the schema defaults filling `color` and `isActive`. -/
def createCategory (db : DB) (newId : Nat) (p : CategoryPayload) :
    DB × Except ApiError Category :=
  if db.categories.any (fun c => jsRegexTestIns p.name c.name) then
    (db, .error .duplicateName)
  else
    let cat : Category :=
      { id := newId,
        name := categoryNormalizeName p.name,
        description := p.description,
        color := p.color.getD "#007bff",
        isActive := p.isActive.getD true }
    ({ db with categories := db.categories ++ [cat] }, .ok cat)

/-- `getCategoryById` (category controller): 404 when the id does not
resolve. -/
def getCategoryById (db : DB) (id : Nat) : Except ApiError Category :=
  match findCategory db id with
  | none => .error .notFound
  | some c => .ok c

/-- Outcome reported by the category delete controller. -/
inductive DeleteOutcome
  | softDeleted (booksCount : Nat)
  | hardDeleted
deriving DecidableEq, Repr

/-- `deleteCategory` (`src/controllers/bookController.js` category part,
lines 898-935): lookup (404); count the books referencing the category;
with dependents the category is kept and `isActive` is set to `false`
(`category.save()` — the name is not modified, so the name hook is a
no-op); with zero dependents it is hard-deleted. -/
def deleteCategory (db : DB) (id : Nat) : DB × Except ApiError DeleteOutcome :=
  match findCategory db id with
  | none => (db, .error .notFound)
  | some cat =>
    let booksCount := (db.books.filter (fun b => b.category == id)).length
    if 0 < booksCount then
      let cat2 := { cat with isActive := false }
      (saveCategory db cat2, .ok (.softDeleted booksCount))
    else
      ({ db with categories := db.categories.filter (fun c => c.id != id) },
       .ok .hardDeleted)

/-- `toggleCategoryStatus` (`src/controllers/bookController.js` category
part, lines 960-981): lookup (404), negate `isActive`, save (the name is
not modified, so the name hook is a no-op), and report the new state. -/
def toggleCategoryStatus (db : DB) (id : Nat) : DB × Except ApiError Category :=
  match findCategory db id with
  | none => (db, .error .notFound)
  | some c =>
    let c2 := { c with isActive := !c.isActive }
    (saveCategory db c2, .ok c2)

/- ## Joi validation model (`src/middleware/validation.js`) -/

/-- A JSON-ish payload value. -/
inductive JsValue
  | str (s : String)
  | num (n : Int)
  | bool (b : Bool)
deriving DecidableEq, Repr

/-- A per-field validation failure, as produced by the `validate`
middleware (`{field, message, value}`; the offending value is elided
here). -/
structure FieldError where
  field : String
  message : String
deriving DecidableEq, Repr

/-- One Joi field rule: the key, whether the field is required, its
default (injected when the key is absent), and the field check.  Type
coercions (string trimming, string-to-number conversion) are applied by
Joi before the checks and are elided: payloads here carry already-typed
values. -/
structure FieldRule where
  name : String
  required : Bool
  dfault : Option JsValue
  check : JsValue → Bool

/-- Key lookup in a raw payload. -/
def lookupKey (payload : List (String × JsValue)) (k : String) : Option JsValue :=
  (payload.find? (fun kv => kv.1 == k)).map (fun kv => kv.2)

/-- Collect every field failure (Joi `abortEarly: false`): a present key
failing its check, or a required key that is absent. -/
def joiCheckFields (schema : List FieldRule) (stripped : List (String × JsValue)) :
    List FieldError :=
  schema.foldr
    (fun r errs =>
      match lookupKey stripped r.name with
      | some v => if r.check v then errs else ⟨r.name, "invalid"⟩ :: errs
      | none => if r.required then ⟨r.name, "required"⟩ :: errs else errs)
    []

/-- Inject the schema defaults for the keys absent from the payload. -/
def joiApplyDefaults (schema : List FieldRule) (stripped : List (String × JsValue)) :
    List (String × JsValue) :=
  stripped ++ schema.filterMap
    (fun r =>
      match lookupKey stripped r.name with
      | some _ => none
      | none => r.dfault.map (fun d => (r.name, d)))

/-- `schema.validate(payload, {abortEarly: false, allowUnknown: false,
stripUnknown: true})` (`src/middleware/validation.js` lines 206-233):
undeclared keys are stripped from the payload, then every declared field
is checked, all failures being collected; on success the sanitized,
defaulted payload is returned and assigned back to the request. -/
def joiValidate (schema : List FieldRule) (payload : List (String × JsValue)) :
    Except (List FieldError) (List (String × JsValue)) :=
  let declared := schema.map (fun r => r.name)
  let stripped := payload.filter (fun kv => declared.contains kv.1)
  match joiCheckFields schema stripped with
  | [] => .ok (joiApplyDefaults schema stripped)
  | e :: es => .error (e :: es)

/-- The `validate(schema, property)` middleware composed with a
downstream handler: on validation failure the request is answered with
the 400 error list and the handler never runs; on success the handler
receives the sanitized payload. -/
def runValidated {α : Type} (schema : List FieldRule)
    (payload : List (String × JsValue))
    (handler : List (String × JsValue) → α) : Except (List FieldError) α :=
  match joiValidate schema payload with
  | .error es => .error es
  | .ok v => .ok (handler v)

/-- Helper: a 24-character hexadecimal token (`/^[0-9a-fA-F]{24}$/`). -/
def isHex24 (s : String) : Bool :=
  s.length == 24 &&
    s.data.all (fun c => c.isDigit || ('a' ≤ c && c ≤ 'f') || ('A' ≤ c && c ≤ 'F'))

/-- The list-query schema of `validateQueryParams`
(`src/middleware/validation.js` lines 258-273): `page` integer ≥ 1
default 1, `limit` integer 1–100 default 10, `sort` string default
`-createdAt`, `search` string, `category` 24-hex id, `status` one of the
four status strings, `minPrice`/`maxPrice` non-negative numbers,
`language` string, `isFeatured` boolean. -/
def listQuerySchema : List FieldRule :=
  [ ⟨"page", false, some (.num 1),
      fun v => match v with | .num n => decide (1 ≤ n) | _ => false⟩,
    ⟨"limit", false, some (.num 10),
      fun v => match v with | .num n => decide (1 ≤ n) && decide (n ≤ 100) | _ => false⟩,
    ⟨"sort", false, some (.str "-createdAt"),
      fun v => match v with | .str _ => true | _ => false⟩,
    ⟨"search", false, none,
      fun v => match v with | .str _ => true | _ => false⟩,
    ⟨"category", false, none,
      fun v => match v with | .str s => isHex24 s | _ => false⟩,
    ⟨"status", false, none,
      fun v => match v with
        | .str s => ["disponible", "agotado", "descontinuado", "próximamente"].contains s
        | _ => false⟩,
    ⟨"minPrice", false, none,
      fun v => match v with | .num n => decide (0 ≤ n) | _ => false⟩,
    ⟨"maxPrice", false, none,
      fun v => match v with | .num n => decide (0 ≤ n) | _ => false⟩,
    ⟨"language", false, none,
      fun v => match v with | .str _ => true | _ => false⟩,
    ⟨"isFeatured", false, none,
      fun v => match v with | .bool _ => true | _ => false⟩ ]

/-- `validateQueryParams()` applied to a query object: validate against
the list-query schema (`validate(schema, 'query')`). -/
def validateQueryParams (query : List (String × JsValue)) :
    Except (List FieldError) (List (String × JsValue)) :=
  joiValidate listQuerySchema query

/-- The category-create Joi schema (`src/middleware/validation.js` lines
9-40): `name` string 2–50 (required), `description` string 10–200
(required), `color` an optional `#`-prefixed 3- or 6-digit hex token,
`isActive` an optional boolean. -/
def categoryCreateSchema : List FieldRule :=
  [ ⟨"name", true, none,
      fun v => match v with
        | .str s => decide (2 ≤ s.length) && decide (s.length ≤ 50)
        | _ => false⟩,
    ⟨"description", true, none,
      fun v => match v with
        | .str s => decide (10 ≤ s.length) && decide (s.length ≤ 200)
        | _ => false⟩,
    ⟨"color", false, none,
      fun v => match v with
        | .str s =>
          (s.length == 7 || s.length == 4) &&
            s.data.head? == some '#' &&
            s.data.tail.all (fun c => c.isDigit || ('a' ≤ c && c ≤ 'f') || ('A' ≤ c && c ≤ 'F'))
        | _ => false⟩,
    ⟨"isActive", false, none,
      fun v => match v with | .bool _ => true | _ => false⟩ ]

/- ## Helper lemmas on the persistence model -/

theorem find?_map_replace {α : Type} (key : α → Nat) (l : List α) (i : Nat) (a b : α)
    (hb : key b = i) (h : l.find? (fun x => key x == i) = some a) :
    (l.map (fun x => if key x == key b then b else x)).find? (fun x => key x == i)
      = some b := by
  induction l with
  | nil => simp at h
  | cons hd tl ih =>
    by_cases hhd : key hd = i
    · have hc : (key hd == key b) = true := by simp [hb, hhd]
      have hpb : (key b == i) = true := by simp [hb]
      simp only [List.map_cons, hc, if_true]
      exact List.find?_cons_of_pos _ hpb
    · have hc : (key hd == key b) = false := by simp [hb, hhd]
      have hskip : ¬ (key hd == i) = true := by simp [hhd]
      rw [List.find?_cons_of_neg (p := fun x => key x == i) _ hskip] at h
      simp only [List.map_cons, hc, Bool.false_eq_true, if_false]
      rw [List.find?_cons_of_neg (p := fun x => key x == i) _ hskip]
      exact ih h

theorem find?_filter_ne {α : Type} (key : α → Nat) (l : List α) (i : Nat) :
    (l.filter (fun x => key x != i)).find? (fun x => key x == i) = none := by
  induction l with
  | nil => rfl
  | cons hd tl ih =>
    by_cases hhd : key hd = i
    · simp only [List.filter_cons]
      have hkeep : (key hd != i) = false := by simp [hhd]
      rw [hkeep]
      simp only [Bool.false_eq_true, if_false]
      exact ih
    · simp only [List.filter_cons]
      have hkeep : (key hd != i) = true := by simp [hhd]
      rw [hkeep]
      simp only [if_true]
      rw [List.find?_cons_of_neg (p := fun x => key x == i) _ (by simp [hhd])]
      exact ih

theorem findBook_id {db : DB} {id : Nat} {b : Book}
    (h : findBook db id = some b) : b.id = id := by
  unfold findBook at h
  simpa using List.find?_some h

theorem findCategory_id {db : DB} {id : Nat} {c : Category}
    (h : findCategory db id = some c) : c.id = id := by
  unfold findCategory at h
  simpa using List.find?_some h

theorem findBook_saveBook {db : DB} {id : Nat} {b : Book} (b2 : Book)
    (h : findBook db id = some b) (hid : b2.id = id) :
    findBook (saveBook db b2) id = some b2 := by
  unfold findBook saveBook at *
  exact find?_map_replace (fun x => x.id) db.books id b b2 hid h

theorem findCategory_saveCategory {db : DB} {id : Nat} {c : Category} (c2 : Category)
    (h : findCategory db id = some c) (hid : c2.id = id) :
    findCategory (saveCategory db c2) id = some c2 := by
  unfold findCategory saveCategory at *
  exact find?_map_replace (fun x => x.id) db.categories id c c2 hid h

theorem bookDeriveStatus_id (b : Book) : (bookDeriveStatus b).id = b.id := by
  unfold bookDeriveStatus
  split_ifs <;> rfl

theorem bookDeriveStatus_stock (b : Book) : (bookDeriveStatus b).stock = b.stock := by
  unfold bookDeriveStatus
  split_ifs <;> rfl

theorem bookDeriveStatus_isbn (b : Book) : (bookDeriveStatus b).isbn = b.isbn := by
  unfold bookDeriveStatus
  split_ifs <;> rfl

theorem bookDeriveStatus_category (b : Book) :
    (bookDeriveStatus b).category = b.category := by
  unfold bookDeriveStatus
  split_ifs <;> rfl

theorem bookPreSave_id (m : ModifiedPaths) (b : Book) :
    (bookPreSave m b).id = b.id := by
  unfold bookPreSave
  split_ifs <;> simp [bookDeriveStatus_id]

theorem bookPreSave_stock (m : ModifiedPaths) (b : Book) :
    (bookPreSave m b).stock = b.stock := by
  unfold bookPreSave
  split_ifs <;> simp [bookDeriveStatus_stock]

theorem bookPreSave_isbn (m : ModifiedPaths) (b : Book) :
    (bookPreSave m b).isbn = b.isbn := by
  unfold bookPreSave
  split_ifs <;> simp [bookDeriveStatus_isbn]

theorem bookPreSave_category (m : ModifiedPaths) (b : Book) :
    (bookPreSave m b).category = b.category := by
  unfold bookPreSave
  split_ifs <;> simp [bookDeriveStatus_category]

/- ## Claim theorems -/

/-- C2: Book create runs its checks in strict order, short-circuiting on
the first failure: nonexistent category → 400 InvalidReference, nothing
persisted; inactive category → 400 InactiveReference, nothing persisted;
duplicate isbn → 409 DuplicateISBN, nothing persisted; only when all
three checks pass is the book persisted. -/
theorem c2_createBook_check_order (db : DB) (newId : Nat) (p : BookPayload) :
    (findCategory db p.category = none →
      createBook db newId p = (db, .error .invalidReference) ∧
      ApiError.invalidReference.statusCode = 400) ∧
    (∀ cat, findCategory db p.category = some cat → cat.isActive = false →
      createBook db newId p = (db, .error .inactiveReference) ∧
      ApiError.inactiveReference.statusCode = 400) ∧
    (∀ cat, findCategory db p.category = some cat → cat.isActive = true →
      db.books.any (fun x => x.isbn == p.isbn) = true →
      createBook db newId p = (db, .error .duplicateISBN) ∧
      ApiError.duplicateISBN.statusCode = 409) ∧
    (∀ cat, findCategory db p.category = some cat → cat.isActive = true →
      db.books.any (fun x => x.isbn == p.isbn) = false →
      createBook db newId p =
        ({ db with books := db.books ++ [mkBook newId p] }, .ok (mkBook newId p))) := by
  refine ⟨?_, ?_, ?_, ?_⟩
  · intro h
    unfold createBook
    rw [h]
    exact ⟨rfl, rfl⟩
  · intro cat h hact
    refine ⟨?_, rfl⟩
    unfold createBook
    rw [h]
    simp [hact]
  · intro cat h hact hdup
    refine ⟨?_, rfl⟩
    unfold createBook
    rw [h]
    simp [hact, hdup]
  · intro cat h hact hdup
    unfold createBook
    rw [h]
    simp [hact, hdup]

/-- Fixture for the C2 witness: one active category, no books. -/
def c2db : DB :=
  ⟨[], [{ id := 5, name := "Ficción", description := "Libros de ficción",
          color := "#007bff", isActive := true }]⟩

/-- Fixture payload for the C2 witness: references category 9, which
does not exist in `c2db`. -/
def c2payload : BookPayload :=
  { title := "dune", author := "frank herbert", isbn := "9780441013593",
    category := 9, stock := 3, status := .disponible }

/-- C2 witness: in `c2db` the payload's category id 9 does not resolve,
so `createBook` answers 400 InvalidReference and persists nothing. -/
theorem c2_createBook_check_order_witness :
    createBook c2db 1 c2payload = (c2db, .error .invalidReference) ∧
    ApiError.invalidReference.statusCode = 400 :=
  (c2_createBook_check_order c2db 1 c2payload).1 (by decide)

/-- C3: deleting an existing category with at least one dependent book
soft-deletes it — the category is kept, `isActive` becomes `false`, it
remains fetchable, and the reported outcome carries the dependent count;
with zero dependent books it is hard-deleted and a subsequent fetch by
the same id yields 404 NotFound. -/
theorem c3_deleteCategory_policy (db : DB) (id : Nat) (cat : Category)
    (h : findCategory db id = some cat) :
    (0 < (db.books.filter (fun b => b.category == id)).length →
      deleteCategory db id =
        (saveCategory db { cat with isActive := false },
         .ok (.softDeleted (db.books.filter (fun b => b.category == id)).length)) ∧
      getCategoryById (deleteCategory db id).1 id = .ok { cat with isActive := false }) ∧
    ((db.books.filter (fun b => b.category == id)).length = 0 →
      deleteCategory db id =
        ({ db with categories := db.categories.filter (fun c => c.id != id) },
         .ok .hardDeleted) ∧
      getCategoryById (deleteCategory db id).1 id = .error .notFound ∧
      ApiError.notFound.statusCode = 404) := by
  have hid : cat.id = id := findCategory_id h
  constructor
  · intro hcnt
    have heq : deleteCategory db id =
        (saveCategory db { cat with isActive := false },
         .ok (.softDeleted (db.books.filter (fun b => b.category == id)).length)) := by
      unfold deleteCategory
      rw [h]
      simp [hcnt]
    refine ⟨heq, ?_⟩
    rw [heq]
    dsimp only
    unfold getCategoryById
    rw [findCategory_saveCategory { cat with isActive := false } h hid]
  · intro hz
    have heq : deleteCategory db id =
        ({ db with categories := db.categories.filter (fun c => c.id != id) },
         .ok .hardDeleted) := by
      unfold deleteCategory
      rw [h]
      simp [hz]
    refine ⟨heq, ?_, rfl⟩
    rw [heq]
    dsimp only
    unfold getCategoryById findCategory
    rw [find?_filter_ne (fun c => c.id) db.categories id]

/-- Fixture category for the C3 witness. -/
def c3cat : Category :=
  { id := 5, name := "Ficción", description := "Libros de ficción",
    color := "#007bff", isActive := true }

/-- Fixture book for the C3 witness: references category 5. -/
def c3book : Book :=
  { id := 1, title := "Dune", author := "Frank Herbert", isbn := "9780441013593",
    category := 5, stock := 3, status := .disponible }

/-- Fixture for the C3 witness: one category with one dependent book. -/
def c3db : DB := ⟨[c3book], [c3cat]⟩

/-- C3 witness: category 5 in `c3db` has one dependent book, so the
delete soft-deletes it and it remains fetchable with `isActive = false`. -/
theorem c3_deleteCategory_policy_witness :
    deleteCategory c3db 5 =
      (saveCategory c3db { c3cat with isActive := false }, .ok (.softDeleted 1)) ∧
    getCategoryById (deleteCategory c3db 5).1 5 = .ok { c3cat with isActive := false } :=
  (c3_deleteCategory_policy c3db 5 c3cat (by decide)).1 (by decide)

/-- C9: on an existing category, one toggle-status application negates
`isActive`, and a second application restores the original value, both in
the reported category and in the stored one (toggle is an involution). -/
theorem c9_toggleCategoryStatus_involution (db : DB) (id : Nat) (c : Category)
    (h : findCategory db id = some c) :
    (toggleCategoryStatus db id).2 = .ok { c with isActive := !c.isActive } ∧
    (toggleCategoryStatus (toggleCategoryStatus db id).1 id).2 =
      .ok { c with isActive := c.isActive } ∧
    findCategory (toggleCategoryStatus (toggleCategoryStatus db id).1 id).1 id
      = some c := by
  have hid : c.id = id := findCategory_id h
  have h1 : toggleCategoryStatus db id =
      (saveCategory db { c with isActive := !c.isActive },
       .ok { c with isActive := !c.isActive }) := by
    unfold toggleCategoryStatus
    rw [h]
  have h2 : findCategory (toggleCategoryStatus db id).1 id =
      some { c with isActive := !c.isActive } := by
    rw [h1]
    exact findCategory_saveCategory { c with isActive := !c.isActive } h hid
  have h4 := findCategory_saveCategory { c with isActive := !(!c.isActive) } h2 hid
  have h3 : toggleCategoryStatus (toggleCategoryStatus db id).1 id =
      (saveCategory (toggleCategoryStatus db id).1 { c with isActive := !(!c.isActive) },
       .ok { c with isActive := !(!c.isActive) }) := by
    generalize hg : (toggleCategoryStatus db id).1 = d at h2 ⊢
    unfold toggleCategoryStatus
    rw [h2]
  refine ⟨by rw [h1], ?_, ?_⟩
  · rw [h3]
    dsimp only
    rw [Bool.not_not]
  · rw [h3]
    dsimp only
    rw [h4, Bool.not_not]

/-- Fixture category and store for the C9 witness. -/
def c9cat : Category :=
  { id := 3, name := "Historia", description := "Libros de historia",
    color := "#ff0000", isActive := true }

/-- Fixture store for the C9 witness. -/
def c9db : DB := ⟨[], [c9cat]⟩

/-- C9 witness: toggling category 3 of `c9db` once reports
`isActive = false`, toggling twice restores the original record. -/
theorem c9_toggleCategoryStatus_involution_witness :
    (toggleCategoryStatus c9db 3).2 = .ok { c9cat with isActive := !c9cat.isActive } ∧
    (toggleCategoryStatus (toggleCategoryStatus c9db 3).1 3).2 =
      .ok { c9cat with isActive := c9cat.isActive } ∧
    findCategory (toggleCategoryStatus (toggleCategoryStatus c9db 3).1 3).1 3
      = some c9cat :=
  c9_toggleCategoryStatus_involution c9db 3 c9cat (by decide)

/-- C10: when a stock `reduce` asks for more than the current stock, the
operation fails with 400 InsufficientStock and the book record is left
entirely unchanged — the error is raised before any mutation, so the
whole store is returned as it was and the stored book keeps its stock
and status. -/
theorem c10_reduce_insufficient_no_mutation (db : DB) (id q : Nat) (b : Book)
    (h : findBook db id = some b) (hq : b.stock < q) :
    updateBookStock db id .reduce q = (db, .error .insufficientStock) ∧
    findBook (updateBookStock db id .reduce q).1 id = some b ∧
    ApiError.insufficientStock.statusCode = 400 := by
  have heq : updateBookStock db id .reduce q = (db, .error .insufficientStock) := by
    unfold updateBookStock
    rw [h]
    dsimp only [applyStockOp, reduceStock]
    rw [if_neg (by omega)]
  refine ⟨heq, ?_, rfl⟩
  rw [heq]
  exact h

/-- Fixture book and store for the C10 witness: stock 5. -/
def c10book : Book :=
  { id := 2, title := "Dune", author := "Frank Herbert", isbn := "9780441013593",
    category := 5, stock := 5, status := .disponible }

/-- Fixture store for the C10 witness. -/
def c10db : DB := ⟨[c10book], []⟩

/-- C10 witness: reducing book 2 of `c10db` (stock 5) by 6 fails with
InsufficientStock and leaves the store untouched. -/
theorem c10_reduce_insufficient_no_mutation_witness :
    updateBookStock c10db 2 .reduce 6 = (c10db, .error .insufficientStock) ∧
    findBook (updateBookStock c10db 2 .reduce 6).1 2 = some c10book ∧
    ApiError.insufficientStock.statusCode = 400 :=
  c10_reduce_insufficient_no_mutation c10db 2 6 c10book (by decide) (by decide)

theorem updateBookStock_ok (db : DB) (id q : Nat) (op : StockOp) (b b2 : Book)
    (h : findBook db id = some b) (happ : applyStockOp b op q = .ok b2)
    (hid2 : b2.id = id) :
    updateBookStock db id op q = (saveBook db b2, .ok ⟨op, q, b2.stock⟩) := by
  unfold updateBookStock
  rw [h]
  dsimp only
  rw [happ]
  dsimp only
  rw [findBook_saveBook b2 h hid2]

/-- C4: for an existing book and a validated quantity, `add` sets stock
to old + q unconditionally; `reduce` fails with 400 InsufficientStock
when q exceeds the current stock and otherwise sets stock to old − q;
`set` assigns stock := q directly; every successful mutation is
persisted, and the response carries the operation performed, the
quantity, and the new stock value. -/
theorem c4_updateBookStock_semantics (db : DB) (id q : Nat) (b : Book)
    (h : findBook db id = some b) :
    (updateBookStock db id .add q
        = (saveBook db (addStock b q), .ok ⟨.add, q, b.stock + q⟩) ∧
      findBook (updateBookStock db id .add q).1 id = some (addStock b q) ∧
      (addStock b q).stock = b.stock + q) ∧
    (b.stock < q →
      updateBookStock db id .reduce q = (db, .error .insufficientStock) ∧
      ApiError.insufficientStock.statusCode = 400) ∧
    (q ≤ b.stock →
      ∃ b2, reduceStock b q = .ok b2 ∧ b2.stock = b.stock - q ∧
        updateBookStock db id .reduce q
          = (saveBook db b2, .ok ⟨.reduce, q, b.stock - q⟩) ∧
        findBook (updateBookStock db id .reduce q).1 id = some b2) ∧
    (updateBookStock db id .set q
        = (saveBook db (setStockDirect b q), .ok ⟨.set, q, q⟩) ∧
      findBook (updateBookStock db id .set q).1 id = some (setStockDirect b q) ∧
      (setStockDirect b q).stock = q) := by
  have hbid : b.id = id := findBook_id h
  have haddid : (addStock b q).id = id := by
    unfold addStock
    rw [bookPreSave_id]
    exact hbid
  have haddstock : (addStock b q).stock = b.stock + q := by
    unfold addStock
    rw [bookPreSave_stock]
  have haddeq := updateBookStock_ok db id q .add b (addStock b q) h rfl haddid
  rw [haddstock] at haddeq
  have hsetid : (setStockDirect b q).id = id := by
    unfold setStockDirect
    rw [bookPreSave_id]
    exact hbid
  have hsetstock : (setStockDirect b q).stock = q := by
    unfold setStockDirect
    rw [bookPreSave_stock]
  have hseteq := updateBookStock_ok db id q .set b (setStockDirect b q) h rfl hsetid
  rw [hsetstock] at hseteq
  refine ⟨⟨haddeq, ?_, haddstock⟩, ?_, ?_, hseteq, ?_, hsetstock⟩
  · rw [haddeq]
    exact findBook_saveBook (addStock b q) h haddid
  · intro hq
    have heq : updateBookStock db id .reduce q = (db, .error .insufficientStock) := by
      unfold updateBookStock
      rw [h]
      dsimp only [applyStockOp, reduceStock]
      rw [if_neg (by omega)]
    exact ⟨heq, rfl⟩
  · intro hq
    have hred : reduceStock b q =
        .ok (bookPreSave ⟨false, false, q ≠ 0⟩ { b with stock := b.stock - q }) := by
      unfold reduceStock
      rw [if_pos hq]
    have happ : applyStockOp b .reduce q =
        .ok (bookPreSave ⟨false, false, q ≠ 0⟩ { b with stock := b.stock - q }) := by
      dsimp only [applyStockOp]
      rw [hred]
    have hrbid : (bookPreSave ⟨false, false, (q ≠ 0 : Bool)⟩
        { b with stock := b.stock - q }).id = id := by
      rw [bookPreSave_id]
      exact hbid
    have hrbstock : (bookPreSave ⟨false, false, (q ≠ 0 : Bool)⟩
        { b with stock := b.stock - q }).stock = b.stock - q := by
      rw [bookPreSave_stock]
    have heq := updateBookStock_ok db id q .reduce b _ h happ hrbid
    rw [hrbstock] at heq
    refine ⟨_, hred, hrbstock, heq, ?_⟩
    rw [heq]
    exact findBook_saveBook _ h hrbid
  · rw [hseteq]
    exact findBook_saveBook (setStockDirect b q) h hsetid

/-- Fixture book for the C4 witness: stock 5 (the spec scenario). -/
def c4book : Book :=
  { id := 4, title := "Dune", author := "Frank Herbert", isbn := "9780441013593",
    category := 5, stock := 5, status := .disponible }

/-- Fixture store for the C4 witness. -/
def c4db : DB := ⟨[c4book], []⟩

/-- C4 witness: `{quantity: 10, operation: add}` against book 4 of
`c4db` (stock 5) yields stock 15, persisted and reported. -/
theorem c4_updateBookStock_semantics_witness :
    updateBookStock c4db 4 .add 10
      = (saveBook c4db (addStock c4book 10), .ok ⟨.add, 10, 15⟩) ∧
    findBook (updateBookStock c4db 4 .add 10).1 4 = some (addStock c4book 10) ∧
    (addStock c4book 10).stock = 15 :=
  (c4_updateBookStock_semantics c4db 4 10 c4book (by decide)).1

theorem bookPreSave_stockOnly (m : Bool) (b : Book) :
    bookPreSave ⟨false, false, m⟩ b = if m then bookDeriveStatus b else b := by
  unfold bookPreSave
  simp

theorem bookDeriveStatus_status (b : Book) :
    (bookDeriveStatus b).status =
      if b.stock = 0 ∧ b.status = .disponible then .agotado
      else if 0 < b.stock ∧ b.status = .agotado then .disponible
      else b.status := by
  unfold bookDeriveStatus
  split_ifs <;> rfl

theorem stockWrite_transition (b b2 : Book) (s : Nat) (m : Bool)
    (hm : m = true ↔ s ≠ b.stock)
    (hco : b.status = .agotado → b.stock = 0)
    (hb2 : b2 = bookPreSave ⟨false, false, m⟩ { b with stock := s }) :
    ((b.status = .descontinuado ∨ b.status = .proximamente) → b2.status = b.status) ∧
    (b2.status ≠ b.status →
      (b.status = .disponible ∧ b2.status = .agotado ∧ 0 < b.stock ∧ b2.stock = 0) ∨
      (b.status = .agotado ∧ b2.status = .disponible ∧ b.stock = 0 ∧ 0 < b2.stock)) ∧
    (b.status = .disponible ∧ 0 < b.stock ∧ b2.stock = 0 → b2.status = .agotado) ∧
    (b.status = .agotado ∧ 0 < b2.stock → b2.status = .disponible) := by
  have hstock : b2.stock = s := by rw [hb2, bookPreSave_stock]
  have hstatus : b2.status =
      if s ≠ b.stock ∧ s = 0 ∧ b.status = .disponible then .agotado
      else if s ≠ b.stock ∧ 0 < s ∧ b.status = .agotado then .disponible
      else b.status := by
    rw [hb2, bookPreSave_stockOnly]
    cases hmv : m with
    | false =>
      have hs : s = b.stock := by
        by_contra hne
        have := hm.mpr hne
        rw [hmv] at this
        exact Bool.false_ne_true this
      simp [hs]
    | true =>
      have hs : s ≠ b.stock := hm.mp hmv
      simp only [if_true]
      rw [bookDeriveStatus_status]
      simp [hs]
  refine ⟨?_, ?_, ?_, ?_⟩
  · intro hd
    rw [hstatus]
    split_ifs with h1 h2
    · exact absurd h1.2.2 (by rcases hd with hx | hx <;> rw [hx] <;> simp)
    · exact absurd h2.2.2 (by rcases hd with hx | hx <;> rw [hx] <;> simp)
    · rfl
  · intro hne
    rw [hstatus] at hne
    rw [hstatus, hstock]
    split_ifs at hne ⊢ with h1 h2
    · left
      obtain ⟨ha, hz, hd⟩ := h1
      exact ⟨hd, rfl, by omega, hz⟩
    · right
      obtain ⟨ha, hp, hd⟩ := h2
      exact ⟨hd, rfl, hco hd, hp⟩
    · exact absurd rfl hne
  · rintro ⟨hd, hpos, hzero⟩
    rw [hstock] at hzero
    rw [hstatus]
    split_ifs with h1 h2
    · rfl
    · exact absurd h2.2.2 (by rw [hd]; simp)
    · exfalso
      have hs : s = b.stock := by
        by_contra hne2
        exact h1 ⟨hne2, hzero, hd⟩
      omega
  · rintro ⟨hd, hpos⟩
    rw [hstock] at hpos
    rw [hstatus]
    split_ifs with h1 h2
    · exact absurd h1.2.2 (by rw [hd]; simp)
    · rfl
    · exfalso
      have hzero := hco hd
      have hs : s = b.stock := by
        by_contra hne2
        exact h2 ⟨hne2, hpos, hd⟩
      omega

/-- C6: during a stock operation the automatic status transitions happen
only between `disponible` and `agotado`, exactly when stock crosses zero
in the corresponding direction; a book whose status is `descontinuado`
or `proximamente` never has its status changed, whatever the resulting
stock.  The coherence hypothesis `agotado → stock = 0` states that the
book entered the operation in a state consistent with the spec's status
machine. -/
theorem c6_stock_status_transitions (b b2 : Book) (op : StockOp) (q : Nat)
    (hco : b.status = .agotado → b.stock = 0)
    (happ : applyStockOp b op q = .ok b2) :
    ((b.status = .descontinuado ∨ b.status = .proximamente) → b2.status = b.status) ∧
    (b2.status ≠ b.status →
      (b.status = .disponible ∧ b2.status = .agotado ∧ 0 < b.stock ∧ b2.stock = 0) ∨
      (b.status = .agotado ∧ b2.status = .disponible ∧ b.stock = 0 ∧ 0 < b2.stock)) ∧
    (b.status = .disponible ∧ 0 < b.stock ∧ b2.stock = 0 → b2.status = .agotado) ∧
    (b.status = .agotado ∧ 0 < b2.stock → b2.status = .disponible) := by
  cases op with
  | add =>
    simp only [applyStockOp, addStock] at happ
    have hb2 := (Except.ok.inj happ).symm
    exact stockWrite_transition b b2 (b.stock + q) _
      (by simp only [decide_eq_true_eq]; constructor <;> intro hx <;> omega) hco hb2
  | reduce =>
    simp only [applyStockOp, reduceStock] at happ
    by_cases hq : b.stock ≥ q
    · rw [if_pos hq] at happ
      dsimp only at happ
      have hb2 := (Except.ok.inj happ).symm
      exact stockWrite_transition b b2 (b.stock - q) _
        (by simp only [decide_eq_true_eq]; constructor <;> intro hx <;> omega) hco hb2
    · rw [if_neg hq] at happ
      simp at happ
  | set =>
    simp only [applyStockOp, setStockDirect] at happ
    have hb2 := (Except.ok.inj happ).symm
    exact stockWrite_transition b b2 q _
      (by simp) hco hb2

/-- Fixture book for the C6 witness: `agotado` with stock 0. -/
def c6book : Book :=
  { id := 6, title := "Dune", author := "Frank Herbert", isbn := "9780441013593",
    category := 5, stock := 0, status := .agotado }

/-- C6 witness: adding 3 to the out-of-stock `c6book` crosses zero
upward, so the automatic transition lands on `disponible`. -/
theorem c6_stock_status_transitions_witness :
    (addStock c6book 3).status = .disponible :=
  (c6_stock_status_transitions c6book (addStock c6book 3) .add 3
      (fun _ => rfl) rfl).2.2.2 ⟨rfl, by decide⟩

/-- C7: whenever the `validate` middleware succeeds, the sanitized
payload it hands downstream contains only keys declared in the schema —
a payload key not declared in the schema is removed (`stripUnknown`),
never silently passed through. -/
theorem c7_validate_strips_unknown_keys (schema : List FieldRule)
    (payload out : List (String × JsValue))
    (hok : joiValidate schema payload = .ok out) :
    ∀ kv ∈ out, kv.1 ∈ schema.map (fun r => r.name) := by
  intro kv hkv
  unfold joiValidate at hok
  dsimp only at hok
  rcases hcf : joiCheckFields schema
      (payload.filter (fun kv =>
        (schema.map (fun r => r.name)).contains kv.1)) with _ | ⟨e, es⟩
  · rw [hcf] at hok
    dsimp only at hok
    have hout := (Except.ok.inj hok)
    rw [← hout] at hkv
    unfold joiApplyDefaults at hkv
    rcases List.mem_append.mp hkv with hmem | hmem
    · have hc := (List.mem_filter.mp hmem).2
      exact List.mem_of_elem_eq_true hc
    · obtain ⟨r, hr, hf⟩ := List.mem_filterMap.mp hmem
      rcases hlk : lookupKey
          (payload.filter (fun kv =>
            (schema.map (fun r => r.name)).contains kv.1)) r.name with _ | v
      · rw [hlk] at hf
        dsimp only at hf
        obtain ⟨d, _, hkv2⟩ := Option.map_eq_some'.mp hf
        rw [← hkv2]
        exact List.mem_map_of_mem (fun r => r.name) hr
      · rw [hlk] at hf
        exact absurd hf (by simp)
  · rw [hcf] at hok
    exact absurd hok (by simp)

/-- Fixture payload for the C7 witness: a category-create payload
carrying the undeclared key `foo`. -/
def c7payload : List (String × JsValue) :=
  [("name", .str "Ficción"), ("description", .str "Libros de ficción"),
   ("foo", .str "bar")]

/-- C7 witness: validating `c7payload` against the category-create
schema succeeds with the `foo` key stripped, and every surviving key —
in particular the head entry — is a declared one. -/
theorem c7_validate_strips_unknown_keys_witness :
    ("name", JsValue.str "Ficción").1 ∈ categoryCreateSchema.map (fun r => r.name) :=
  c7_validate_strips_unknown_keys categoryCreateSchema c7payload
    [("name", .str "Ficción"), ("description", .str "Libros de ficción")]
    rfl ("name", .str "Ficción") (by simp)

/-- C8: the list-query validator enforces `page ≥ 1` (default 1) and
`1 ≤ limit ≤ 100` (default 10).  A request with `limit = 101` is
rejected with a 400 validation failure by the shape validator before the
downstream handler — and hence any persistence query or consistency
check — runs: the outcome is the same error whatever the handler.
Boundary values 1 and 100 pass, 0 fails on both fields, and omitted
`page`/`limit` are filled with their defaults in the sanitized query. -/
theorem c8_listQuery_pagination_limits :
    (∀ (α : Type) (handler : List (String × JsValue) → α),
      runValidated listQuerySchema [("limit", .num 101)] handler
        = .error [⟨"limit", "invalid"⟩]) ∧
    validateQueryParams [] =
      .ok [("page", .num 1), ("limit", .num 10), ("sort", .str "-createdAt")] ∧
    validateQueryParams [("page", .num 1), ("limit", .num 100)] =
      .ok [("page", .num 1), ("limit", .num 100), ("sort", .str "-createdAt")] ∧
    validateQueryParams [("limit", .num 1)] =
      .ok [("limit", .num 1), ("page", .num 1), ("sort", .str "-createdAt")] ∧
    validateQueryParams [("limit", .num 0)] = .error [⟨"limit", "invalid"⟩] ∧
    validateQueryParams [("page", .num 0)] = .error [⟨"page", "invalid"⟩] := by
  refine ⟨?_, rfl, rfl, rfl, rfl, rfl⟩
  intro α handler
  rfl

/-- Fixture book for C1: available, stock 5. -/
def c1book : Book :=
  { id := 1, title := "Dune", author := "Frank Herbert", isbn := "9780441013593",
    category := 5, stock := 5, status := .disponible }

/-- Fixture store for C1. -/
def c1db : DB := ⟨[c1book], []⟩

/-- The C1 failing request: a partial update setting only `stock := 0`. -/
def c1update : BookUpdatePayload := { stock := some 0 }

/-- C1: the claimed invariant `stock = 0 → status ≠ disponible` does NOT
survive the partial-update write path.  A `PUT` carrying only
`{stock: 0}` passes `validateStockConsistency` (which only reacts when
`status` is present alongside), and `findByIdAndUpdate` skips the
pre-save status derivation, so the stored book ends with `stock = 0` and
`status = disponible` — the update succeeds and the coherence predicate
is violated. -/
theorem c1_partial_update_breaks_stock_status_coherence :
    validateStockConsistency c1update.stock c1update.status = true ∧
    (putBookRoute c1db 1 c1update).2 = .ok { c1book with stock := 0 } ∧
    findBook (putBookRoute c1db 1 c1update).1 1 = some { c1book with stock := 0 } ∧
    ¬ stockStatusCoherent { c1book with stock := 0 } := by
  refine ⟨rfl, rfl, rfl, ?_⟩
  intro hcoh
  exact absurd (hcoh rfl) (by simp [c1book])


theorem tokenize_literal (cs : List Char) (h : ∀ c ∈ cs, c ∉ regexSyntaxChars) :
    tokenize cs = some (cs.map RTok.lit) := by
  induction cs with
  | nil => rfl
  | cons c rest ih =>
    have hc : c ∉ regexSyntaxChars := h c (List.mem_cons_self c rest)
    have hne : ∀ d ∈ regexSyntaxChars, c ≠ d := fun d hd heq => hc (heq ▸ hd)
    have hmem : c ∉ ['^', '$', '|', '(', ')', '[', ']', '\x7b', '\x7d'] := by
      intro hm
      apply hc
      have hsub : ∀ x ∈ ['^', '$', '|', '(', ')', '[', ']', '\x7b', '\x7d'],
          x ∈ regexSyntaxChars := by decide
      exact hsub c hm
    rw [tokenize.eq_def]
    dsimp only
    rw [if_neg (hne '\\' (by decide)), if_neg (hne '.' (by decide)),
        if_neg (hne '*' (by decide)), if_neg (hne '+' (by decide)),
        if_neg (hne '?' (by decide)), if_neg hmem,
        ih (fun x hx => h x (List.mem_cons_of_mem c hx))]
    rfl

theorem groupQuants_literal (cs : List Char) :
    groupQuants (cs.map RTok.lit)
      = some (cs.map (fun c => (⟨CSpec.lit c, Quant.one⟩ : QAtom))) := by
  induction cs with
  | nil => rfl
  | cons c rest ih =>
    cases rest with
    | nil => rfl
    | cons c2 rest2 =>
      show (groupQuants (RTok.lit c2 :: rest2.map RTok.lit)).map
          ((⟨CSpec.lit c, Quant.one⟩ : QAtom) :: ·) = _
      rw [show RTok.lit c2 :: rest2.map RTok.lit = (c2 :: rest2).map RTok.lit from rfl, ih]
      rfl

theorem matchAtomsF_literal (fuel : Nat) (cs ds : List Char)
    (hf : cs.length + ds.length < fuel) :
    matchAtomsF fuel (cs.map (fun c => (⟨CSpec.lit c, Quant.one⟩ : QAtom))) ds
      = (cs.map Char.toLower == ds.map Char.toLower) := by
  induction fuel generalizing cs ds with
  | zero => omega
  | succ n ih =>
    cases cs with
    | nil =>
      cases ds with
      | nil => rfl
      | cons d ds2 => rfl
    | cons c cs2 =>
      cases ds with
      | nil => rfl
      | cons d ds2 =>
        simp only [List.map_cons, matchAtomsF]
        rw [ih cs2 ds2 (by simp at hf ⊢; omega)]
        rfl

theorem jsRegexTestIns_literal (p s : String)
    (h : ∀ c ∈ p.data, c ∉ regexSyntaxChars) :
    jsRegexTestIns p s = eqIgnoreCase p s := by
  have hparse : parsePattern p
      = some (p.data.map (fun c => (⟨CSpec.lit c, Quant.one⟩ : QAtom))) := by
    unfold parsePattern
    rw [tokenize_literal p.data h]
    show groupQuants (p.data.map RTok.lit) = _
    exact groupQuants_literal p.data
  unfold jsRegexTestIns
  rw [hparse]
  show matchAtoms (p.data.map (fun c => (⟨CSpec.lit c, Quant.one⟩ : QAtom))) s.data
      = eqIgnoreCase p s
  unfold matchAtoms
  rw [matchAtomsF_literal _ p.data s.data (by simp)]
  rfl

theorem any_pointwise_congr {α : Type} (l : List α) (p q : α → Bool)
    (h : ∀ a ∈ l, p a = q a) : l.any p = l.any q := by
  induction l with
  | nil => rfl
  | cons a rest ih =>
    simp only [List.any_cons]
    rw [h a (List.mem_cons_self a rest),
        ih (fun x hx => h x (List.mem_cons_of_mem a hx))]

/-- Fixture payload for C5: a two-word category name free of regex
metacharacters. -/
def c5payload : CategoryPayload :=
  { name := "science fiction", description := "Stories of imagined futures" }

/-- Fixture store for C5: empty, so no duplicate exists. -/
def c5db : DB := ⟨[], []⟩

/-- Fixture category for the C5 regex divergence: stored name "abc". -/
def c5catAbc : Category :=
  { id := 9, name := "abc", description := "Assorted uncategorized books",
    color := "#007bff", isActive := true }

/-- Fixture store for the C5 regex divergence. -/
def c5dbAbc : DB := ⟨[], [c5catAbc]⟩

/-- Fixture payload for the C5 regex divergence: the valid name "a.c"
contains the regex wildcard `.`. -/
def c5payloadDot : CategoryPayload :=
  { name := "a.c", description := "Dotted-name payload fixture" }

/-- C5 counterexample, refuting both halves of the claim as stated.
Normalization: creating "science fiction" stores the name as
"Science fiction" (first letter uppercased, remainder lowercased), not
the title-cased "Science Fiction" the claim promises.  Duplicate check:
the payload name "a.c" does not equal the stored name "abc" ignoring
case, so the claim says it is persisted — but the source interpolates
the raw name into the lookup regex, `^a.c$` matches "abc", and the
create is rejected with 409 DuplicateName, persisting nothing. -/
theorem c5_createCategory_claim_counterexample :
    (createCategory c5db 1 c5payload).2.map (fun cat => cat.name)
      = .ok "Science fiction" ∧
    titleCaseSpec c5payload.name = "Science Fiction" ∧
    categoryNormalizeName c5payload.name ≠ titleCaseSpec c5payload.name ∧
    eqIgnoreCase c5payloadDot.name c5catAbc.name = false ∧
    createCategory c5dbAbc 2 c5payloadDot = (c5dbAbc, .error .duplicateName) := by
  refine ⟨rfl, rfl, by decide, by decide, rfl⟩

/-- C5 (amended): for a valid category-create payload whose name is free
of regex metacharacters (the source interpolates the raw name into its
duplicate-lookup regex, so names carrying regex syntax are matched as
patterns, not literally): if an existing category's name equals the
payload's name ignoring case, the create is rejected with 409
DuplicateName and nothing is persisted; otherwise the category is
persisted with its name normalized to sentence case (first character
uppercased, the remainder lowercased), with the schema defaults for
`color` and `isActive`. -/
theorem c5_createCategory_semantics (db : DB) (newId : Nat) (p : CategoryPayload)
    (hlit : ∀ c ∈ p.name.data, c ∉ regexSyntaxChars) :
    ((∃ c ∈ db.categories, eqIgnoreCase p.name c.name = true) →
      createCategory db newId p = (db, .error .duplicateName) ∧
      ApiError.duplicateName.statusCode = 409) ∧
    ((∀ c ∈ db.categories, eqIgnoreCase p.name c.name = false) →
      ∃ cat, createCategory db newId p =
          ({ db with categories := db.categories ++ [cat] }, .ok cat) ∧
        cat.name = categoryNormalizeName p.name ∧
        cat.description = p.description ∧
        cat.color = p.color.getD "#007bff" ∧
        cat.isActive = p.isActive.getD true) := by
  have hpt : db.categories.any (fun c => jsRegexTestIns p.name c.name)
      = db.categories.any (fun c => eqIgnoreCase p.name c.name) :=
    any_pointwise_congr db.categories _ _
      (fun c _ => jsRegexTestIns_literal p.name c.name hlit)
  constructor
  · rintro ⟨c, hc, hq⟩
    refine ⟨?_, rfl⟩
    have hany : db.categories.any (fun c => jsRegexTestIns p.name c.name) = true := by
      rw [hpt, List.any_eq_true]
      exact ⟨c, hc, hq⟩
    unfold createCategory
    rw [if_pos hany]
  · intro hall
    have hany : db.categories.any (fun c => jsRegexTestIns p.name c.name) = false := by
      rw [hpt, List.any_eq_false]
      intro c hc
      simp [hall c hc]
    refine ⟨{ id := newId, name := categoryNormalizeName p.name,
              description := p.description, color := p.color.getD "#007bff",
              isActive := p.isActive.getD true },
            ?_, rfl, rfl, rfl, rfl⟩
    unfold createCategory
    rw [if_neg (by simp [hany])]

/-- C5 witness: "science fiction" has no regex metacharacters, and
creating it in the empty store succeeds and persists the sentence-cased
name. -/
theorem c5_createCategory_semantics_witness :
    ∃ cat, createCategory c5db 2 c5payload =
        ({ c5db with categories := c5db.categories ++ [cat] }, .ok cat) ∧
      cat.name = categoryNormalizeName c5payload.name ∧
      cat.description = c5payload.description ∧
      cat.color = c5payload.color.getD "#007bff" ∧
      cat.isActive = c5payload.isActive.getD true :=
  (c5_createCategory_semantics c5db 2 c5payload (by decide)).2
    (by intro c hc; simp [c5db] at hc)
